import Mathlib

/-!
Verification of the BlackRoad grant tracker core (`grant_tracker.py`).

The SQLite-backed store is modelled as three in-memory tables (grants,
submissions, grant notes) together with a fresh-identifier supply: the
program draws identifiers from `uuid.uuid4()`, whose contract is that every
draw is distinct from all previous ones, and this is embedded as a counter
`nextId` handed out in order.  Timestamps (`datetime.utcnow().isoformat()`)
are opaque strings supplied to each operation as a `now` argument.  Monetary
amounts are exact rationals; no claim under verification depends on binary
floating point rounding.  List-valued columns (requirements, reporting
dates, contacts, documents) are held directly as `List String`; the
serialized-text representation used at the store boundary (`json.dumps` /
`json.loads`) is modelled separately by `dumps` / `loads` below and proved
to round-trip, which licenses the direct representation.
-/

namespace GrantTracker

/-- The four grant types of `GrantType` (`private` is a Lean keyword, hence
`private_`). -/
inductive GType where
  | federal
  | state
  | private_
  | foundation
deriving DecidableEq, Repr

/-- The seven lifecycle statuses of `GrantStatus`. -/
inductive GrantStatus where
  | identified
  | applying
  | submitted
  | awarded
  | rejected
  | reporting
  | closed
deriving DecidableEq, Repr

/-- The string stored in the `status` column for each enum member
(`GrantStatus.<member>.value` in the source). -/
def GrantStatus.value : GrantStatus → String
  | .identified => "identified"
  | .applying => "applying"
  | .submitted => "submitted"
  | .awarded => "awarded"
  | .rejected => "rejected"
  | .reporting => "reporting"
  | .closed => "closed"

/-- A row of the `grants` table / the `Grant` dataclass. -/
structure Grant where
  id : Nat
  title : String
  funder : String
  amount : Rat
  type : GType
  purpose : String
  deadline : Option String
  status : GrantStatus
  requirements : List String
  reporting_dates : List String
  contacts : List String
  award_amount : Option Rat
  notes : String
  assigned_to : String
  created_at : String
  updated_at : String
deriving DecidableEq, Repr

/-- A row of the `submissions` table / the `Submission` dataclass. -/
structure Submission where
  id : Nat
  grant_id : Nat
  submitted_at : String
  notes : String
  submitted_by : String
  documents : List String
  created_at : String
deriving DecidableEq, Repr

/-- A row of the `grant_notes` table / the `GrantNote` dataclass. -/
structure GrantNote where
  id : Nat
  grant_id : Nat
  content : String
  author : String
  created_at : String
deriving DecidableEq, Repr

/-- The database state: the three tables plus the fresh-identifier supply
modelling `uuid.uuid4()`. -/
structure Store where
  grants : List Grant
  submissions : List Submission
  grant_notes : List GrantNote
  nextId : Nat
deriving DecidableEq, Repr

/-- The state right after `_init_schema` on a fresh database file. -/
def Store.empty : Store := ⟨[], [], [], 0⟩

/-- `get_grant`: point lookup by identifier (`SELECT * FROM grants WHERE id = ?`). -/
def get_grant (s : Store) (grant_id : Nat) : Option Grant :=
  s.grants.find? (fun g => g.id == grant_id)

/-- `identify`: insert a newly identified grant opportunity.  `requirements or []`
and `contacts or []` in the source map `None` to `[]`, as does `Option.getD`. -/
def identify (s : Store) (now : String) (title funder : String) (amount : Rat)
    (deadline : Option String) (grant_type : GType) (purpose : String)
    (requirements contacts : Option (List String)) (assigned_to : String) :
    Grant × Store :=
  let g : Grant :=
    { id := s.nextId
      title := title
      funder := funder
      amount := amount
      type := grant_type
      purpose := purpose
      deadline := deadline
      status := GrantStatus.identified
      requirements := requirements.getD []
      reporting_dates := []
      contacts := contacts.getD []
      award_amount := none
      notes := ""
      assigned_to := assigned_to
      created_at := now
      updated_at := now }
  (g, { s with grants := s.grants ++ [g], nextId := s.nextId + 1 })

/-- `UPDATE grants SET ... WHERE id = ?`: rewrite every row matching the
identifier with `f`, leaving other rows alone. -/
def updateGrant (grant_id : Nat) (f : Grant → Grant) (l : List Grant) : List Grant :=
  l.map (fun g => if g.id == grant_id then f g else g)

/-- The row rewrite performed by `_transition`'s two `UPDATE` statements:
status and update timestamp always, the notes column only when `notes` is
truthy (non-empty). -/
def applyStatus (new_status : GrantStatus) (now notes : String) (g : Grant) : Grant :=
  { g with status := new_status, updated_at := now,
           notes := if notes == "" then g.notes else notes }

/-- `_transition`: if the grant exists, set the status and update timestamp,
and overwrite the notes column only when `notes` is truthy (non-empty);
return the re-read row.  If the grant does not exist, return `None` and
leave the database untouched. -/
def transition (s : Store) (now : String) (grant_id : Nat)
    (new_status : GrantStatus) (notes : String) : Option Grant × Store :=
  match get_grant s grant_id with
  | none => (none, s)
  | some _ =>
    let s1 : Store :=
      { s with grants := updateGrant grant_id (applyStatus new_status now notes) s.grants }
    (get_grant s1 grant_id, s1)

/-- `apply`: move the grant to `applying`.  The `assigned_to` parameter is
part of the source signature but is never used in the body. -/
def apply (s : Store) (now : String) (grant_id : Nat)
    (notes : String) (assigned_to : String) : Option Grant × Store :=
  transition s now grant_id GrantStatus.applying notes

/-- Outcome of `submit`: `ok` carries the return value and the database
state; `failed` is the case in which the submission `INSERT` raises, the
transactional `with` block rolls the insert back, and the exception
propagates before the status update ever runs, so the database is left in
the carried state. -/
inductive SubmitOutcome where
  | ok (grant : Option Grant) (s : Store)
  | failed (s : Store)
deriving DecidableEq, Repr

/-- The database state carried by a `SubmitOutcome`. -/
def SubmitOutcome.store : SubmitOutcome → Store
  | .ok _ s => s
  | .failed s => s

/-- The value `submit` returns to its caller (`none` both for a missing
grant and — vacuously — for the raising case, where no value is
returned at all). -/
def SubmitOutcome.returned : SubmitOutcome → Option Grant
  | .ok g _ => g
  | .failed _ => none

/-- `submit`: if the grant exists, insert a submission row and then run
`_transition` to `submitted`.  `insert_ok` is the environment's verdict on
the submission `INSERT` (false models the store raising a constraint
error). -/
def submit (s : Store) (now : String) (grant_id : Nat)
    (notes submitted_by : String) (documents : Option (List String))
    (insert_ok : Bool) : SubmitOutcome :=
  match get_grant s grant_id with
  | none => .ok none s
  | some _ =>
    if insert_ok then
      let sub : Submission :=
        { id := s.nextId
          grant_id := grant_id
          submitted_at := now
          notes := notes
          submitted_by := submitted_by
          documents := documents.getD []
          created_at := now }
      let s1 : Store := { s with submissions := s.submissions ++ [sub],
                                 nextId := s.nextId + 1 }
      let t := transition s1 now grant_id GrantStatus.submitted ""
      .ok t.1 t.2
    else .failed s

/-- The row rewrite performed by `award`'s `UPDATE` statement. -/
def awardUpdate (actual : Rat) (dates : List String) (now : String) (g : Grant) : Grant :=
  { g with status := GrantStatus.awarded,
           award_amount := some actual,
           reporting_dates := dates,
           updated_at := now }

/-- `award`: if the grant exists, set status `awarded`, the awarded amount
to the supplied value or else the stored requested amount
(`award_amount if award_amount is not None else grant.amount`), and the
reporting dates to the supplied list or else `[]`
(`json.dumps(reporting_dates or [])`); return the re-read row. -/
def award (s : Store) (now : String) (grant_id : Nat)
    (award_amount : Option Rat) (reporting_dates : Option (List String)) :
    Option Grant × Store :=
  match get_grant s grant_id with
  | none => (none, s)
  | some g =>
    let actual : Rat := award_amount.getD g.amount
    let dates : List String := reporting_dates.getD []
    let s1 : Store :=
      { s with grants := updateGrant grant_id (awardUpdate actual dates now) s.grants }
    (get_grant s1 grant_id, s1)

/-- `reject`: move the grant to `rejected`, optionally attaching notes. -/
def reject (s : Store) (now : String) (grant_id : Nat) (notes : String) :
    Option Grant × Store :=
  transition s now grant_id GrantStatus.rejected notes

/-- `start_reporting`: move the grant to `reporting`. -/
def start_reporting (s : Store) (now : String) (grant_id : Nat) :
    Option Grant × Store :=
  transition s now grant_id GrantStatus.reporting ""

/-- `close`: move the grant to `closed`. -/
def close (s : Store) (now : String) (grant_id : Nat) :
    Option Grant × Store :=
  transition s now grant_id GrantStatus.closed ""

/-- `add_note`: build a note row and insert it unconditionally — the source
never checks that the grant exists, and the store does not enforce the
`REFERENCES grants(id)` clause (SQLite foreign-key enforcement is off by
default and the program never enables it). -/
def add_note (s : Store) (now : String) (grant_id : Nat)
    (content author : String) : GrantNote × Store :=
  let note : GrantNote :=
    { id := s.nextId
      grant_id := grant_id
      content := content
      author := author
      created_at := now }
  (note, { s with grant_notes := s.grant_notes ++ [note], nextId := s.nextId + 1 })

/-- `get_submissions`: the submission rows of one grant
(`WHERE grant_id = ?`). The source additionally orders them newest first;
ordering is irrelevant to the properties below, so the selection alone is
modelled. -/
def get_submissions (s : Store) (grant_id : Nat) : List Submission :=
  s.submissions.filter (fun sub => sub.grant_id == grant_id)

/-- Result dictionary of `success_rate`. -/
structure SuccessRateResult where
  funder : String
  submitted : Nat
  awarded : Nat
  rejected : Nat
  success_rate : Rat
deriving DecidableEq, Repr

/-- `round(x, 3)`: rounding to three decimal places.  Python rounds floats
half-to-even; on exact rationals the difference can only show on exact
ties, on which no verified property depends, so the standard nearest
rounding of `Mathlib` is used. -/
def round3 (x : Rat) : Rat := (round (x * 1000) : Int) / 1000

/-- `status IN ('submitted','awarded','rejected')` from the `success_rate`
query. -/
def statusDecided (st : GrantStatus) : Bool :=
  st == GrantStatus.submitted || st == GrantStatus.awarded || st == GrantStatus.rejected

/-- The optional `AND funder = ?` clause. -/
def funderMatches (filter : Option String) (g : Grant) : Bool :=
  match filter with
  | none => true
  | some f => g.funder == f

/-- `success_rate`: count grants with decided-or-submitted status (optionally
restricted to one funder) grouped by status, and report
`awarded / (awarded + rejected)` rounded to three decimals, or `0` when no
grant is decided. -/
def success_rate (s : Store) (funder_filter : Option String) : SuccessRateResult :=
  let pool : List Grant :=
    s.grants.filter (fun g => statusDecided g.status && funderMatches funder_filter g)
  let awarded : Nat := (pool.filter (fun g => g.status == GrantStatus.awarded)).length
  let rejected : Nat := (pool.filter (fun g => g.status == GrantStatus.rejected)).length
  let submitted : Nat := (pool.filter (fun g => g.status == GrantStatus.submitted)).length
  let total_decided : Nat := awarded + rejected
  { funder := funder_filter.getD "all"
    submitted := submitted
    awarded := awarded
    rejected := rejected
    success_rate :=
      if total_decided == 0 then 0
      else round3 ((awarded : Rat) / (total_decided : Rat)) }

/-- Well-formedness of a store state: the fresh-identifier supply really is
fresh (every identifier already handed out, and every grant identifier a
submission refers to, is below `nextId`).  This is the contract of
`uuid.uuid4()` in the embedding; `Store.empty` satisfies it and every
operation preserves it. -/
def WF (s : Store) : Prop :=
  (∀ g ∈ s.grants, g.id < s.nextId) ∧
  (∀ sub ∈ s.submissions, sub.id < s.nextId ∧ sub.grant_id < s.nextId) ∧
  (∀ n ∈ s.grant_notes, n.id < s.nextId)

/-- One mutating operation of the service, as a relation between the
database state before and after the call (arguments existentially packed
in the constructors). -/
inductive Step : Store → Store → Prop where
  | identify (s : Store) (now title funder : String) (amount : Rat)
      (deadline : Option String) (grant_type : GType) (purpose : String)
      (requirements contacts : Option (List String)) (assigned_to : String) :
      Step s (identify s now title funder amount deadline grant_type purpose
        requirements contacts assigned_to).2
  | apply (s : Store) (now : String) (grant_id : Nat) (notes assigned_to : String) :
      Step s (apply s now grant_id notes assigned_to).2
  | submit (s : Store) (now : String) (grant_id : Nat)
      (notes submitted_by : String) (documents : Option (List String))
      (insert_ok : Bool) :
      Step s (submit s now grant_id notes submitted_by documents insert_ok).store
  | award (s : Store) (now : String) (grant_id : Nat)
      (award_amount : Option Rat) (reporting_dates : Option (List String)) :
      Step s (award s now grant_id award_amount reporting_dates).2
  | reject (s : Store) (now : String) (grant_id : Nat) (notes : String) :
      Step s (reject s now grant_id notes).2
  | start_reporting (s : Store) (now : String) (grant_id : Nat) :
      Step s (start_reporting s now grant_id).2
  | close (s : Store) (now : String) (grant_id : Nat) :
      Step s (close s now grant_id).2
  | add_note (s : Store) (now : String) (grant_id : Nat) (content author : String) :
      Step s (add_note s now grant_id content author).2

/-- Reachability: states produced from a fresh database by any sequence of
operations. -/
def Reachable (s : Store) : Prop := Relation.ReflTransGen Step Store.empty s

/-! ### The store boundary serialization

`identify`, `submit` and `award` write list-valued columns with
`json.dumps`, and `_row_to_grant` / `get_submissions` read them back with
`json.loads`.  The fragment of JSON the program exchanges is exactly
arrays of strings, serialized with the default `dumps` options
(separator `", "`, `ensure_ascii=True`), so the encoder below escapes
`"`, `\`, the named control characters, every other character outside
`0x20..0x7e` as `\uXXXX`, and characters beyond the basic plane as a
surrogate pair, precisely as CPython's `py_encode_basestring_ascii` does.
The decoder is a recursive-descent reader of string arrays accepting the
same whitespace and escape forms as CPython's `py_scanstring`/scanner
(both hexadecimal letter cases, the `\/` escape, surrogate-pair
recombination); the sole divergence is that a lone surrogate — which
Python would keep as an unpaired code unit but which no Lean `String`
(and no `dumps` output of a `List String`) can contain — is rejected. -/

/-- The `"` character. -/
def quoteChar : Char := Char.ofNat 34

/-- The `\` character. -/
def backslashChar : Char := Char.ofNat 92

/-- Lowercase hexadecimal digit, as produced by CPython's `%04x`. -/
def toHexDigit (n : Nat) : Char :=
  if n < 10 then Char.ofNat (48 + n) else Char.ofNat (87 + n)

/-- The hexadecimal digit of `n` at place value `d` (a power of 16). -/
def hexDigitAt (n d : Nat) : Char := toHexDigit (n / d % 16)

/-- Four lowercase hexadecimal digits for a value below `0x10000`. -/
def hex4 (n : Nat) : List Char :=
  [hexDigitAt n 4096, hexDigitAt n 256, hexDigitAt n 16, hexDigitAt n 1]

/-- How `json.dumps` (with `ensure_ascii=True`) writes one character. -/
def escapeChar (c : Char) : List Char :=
  if c.toNat = 34 then [backslashChar, quoteChar]
  else if c.toNat = 92 then [backslashChar, backslashChar]
  else if c.toNat = 8 then [backslashChar, 'b']
  else if c.toNat = 9 then [backslashChar, 't']
  else if c.toNat = 10 then [backslashChar, 'n']
  else if c.toNat = 12 then [backslashChar, 'f']
  else if c.toNat = 13 then [backslashChar, 'r']
  else if 32 ≤ c.toNat ∧ c.toNat ≤ 126 then [c]
  else if c.toNat < 65536 then backslashChar :: 'u' :: hex4 c.toNat
  else backslashChar :: 'u' :: hex4 (55296 + (c.toNat - 65536) / 1024) ++
       backslashChar :: 'u' :: hex4 (56320 + (c.toNat - 65536) % 1024)

/-- Escape every character of a string body. -/
def escapeString : List Char → List Char
  | [] => []
  | c :: cs => escapeChar c ++ escapeString cs

/-- A JSON string literal: quote, escaped body, quote. -/
def encodeString (s : List Char) : List Char :=
  quoteChar :: escapeString s ++ [quoteChar]

/-- The comma-space separated element list of the default `dumps`
separators. -/
def encodeElems : List (List Char) → List Char
  | [] => []
  | [s] => encodeString s
  | s :: rest => encodeString s ++ ',' :: ' ' :: encodeElems rest

/-- `json.dumps` on a list of strings. -/
def dumps (l : List String) : String :=
  String.mk ('[' :: encodeElems (l.map String.data) ++ [']'])

/-- Value of a hexadecimal digit; `json.loads` accepts both letter cases. -/
def hexVal (c : Char) : Option Nat :=
  let v := c.toNat
  if 48 ≤ v ∧ v ≤ 57 then some (v - 48)
  else if 97 ≤ v ∧ v ≤ 102 then some (v - 87)
  else if 65 ≤ v ∧ v ≤ 70 then some (v - 55)
  else none

/-- The single-character escapes `json.loads` accepts (`\uXXXX` is handled
separately). -/
def simpleUnescape (c : Char) : Option Char :=
  if c = quoteChar then some quoteChar
  else if c = backslashChar then some backslashChar
  else if c = '/' then some '/'
  else if c = 'b' then some (Char.ofNat 8)
  else if c = 'f' then some (Char.ofNat 12)
  else if c = 'n' then some (Char.ofNat 10)
  else if c = 'r' then some (Char.ofNat 13)
  else if c = 't' then some (Char.ofNat 9)
  else none

/-- The value of four hexadecimal digit characters. -/
def hex4val (a b c d : Char) : Option Nat :=
  match hexVal a, hexVal b, hexVal c, hexVal d with
  | some ha, some hb, some hc, some hd =>
    some (((ha * 16 + hb) * 16 + hc) * 16 + hd)
  | _, _, _, _ => none

/-- Decode the input right after `\u`: four hexadecimal digits; a high
surrogate must be followed by a second escape carrying a low surrogate,
which CPython's `py_scanstring` recombines into one character.  A lone
surrogate — which Python would keep as an unpaired code unit but no Lean
`String` (and no `dumps` output) can contain — is rejected. -/
def decodeUnicode (r : List Char) : Option (Char × List Char) :=
  match r with
  | a :: b :: c :: d :: r2 =>
    match hex4val a b c d with
    | none => none
    | some n =>
      if n < 55296 ∨ 57344 ≤ n then some (Char.ofNat n, r2)
      else if n < 56320 then
        match r2 with
        | b1 :: u1 :: a2 :: b2 :: c3 :: d2 :: r3 =>
          if b1 = backslashChar ∧ u1 = 'u' then
            match hex4val a2 b2 c3 d2 with
            | some m =>
              if 56320 ≤ m ∧ m < 57344 then
                some (Char.ofNat (65536 + (n - 55296) * 1024 + (m - 56320)), r3)
              else none
            | none => none
          else none
        | _ => none
      else none
  | _ => none

/-- Decode one escape sequence (the input right after `\`). -/
def decodeEscape (rest : List Char) : Option (Char × List Char) :=
  match rest with
  | [] => none
  | e :: r =>
    if e = 'u' then decodeUnicode r
    else
      match simpleUnescape e with
      | some ch => some (ch, r)
      | none => none

/-- Read a JSON string body (the opening quote already consumed): returns
the decoded characters and the input after the closing quote.  Mirrors
CPython `py_scanstring` in strict mode: raw control characters are
rejected and escapes go through `decodeEscape`.  Each step consumes at
least one input character, so any `fuel` exceeding the input length makes
the recursion behave as the unbounded parser. -/
def readStringBody : Nat → List Char → Option (List Char × List Char)
  | 0, _ => none
  | fuel + 1, cs =>
    match cs with
    | [] => none
    | c :: rest =>
      if c = quoteChar then some ([], rest)
      else if c = backslashChar then
        match decodeEscape rest with
        | some (ch, r) => (readStringBody fuel r).map (fun p => (ch :: p.1, p.2))
        | none => none
      else if c.toNat < 32 then none
      else (readStringBody fuel rest).map (fun p => (c :: p.1, p.2))

/-- Skip the JSON whitespace characters (space, tab, newline, carriage
return). -/
def skipWs : List Char → List Char
  | [] => []
  | c :: rest =>
    if c = ' ' ∨ c = Char.ofNat 9 ∨ c = Char.ofNat 10 ∨ c = Char.ofNat 13 then
      skipWs rest
    else c :: rest

/-- Read one or more comma-separated string elements followed by the
closing bracket; returns the elements and the input after the bracket.
`fuel` bounds the number of elements (any value at least the element
count works). -/
def readElems : Nat → List Char → Option (List (List Char) × List Char)
  | 0, _ => none
  | fuel + 1, cs =>
    match skipWs cs with
    | [] => none
    | c :: r =>
      if c = quoteChar then
        match readStringBody (r.length + 1) r with
        | none => none
        | some (str, r1) =>
          match skipWs r1 with
          | [] => none
          | c2 :: r2 =>
            if c2 = ',' then
              (readElems fuel r2).map (fun p => (str :: p.1, p.2))
            else if c2 = ']' then some ([str], r2)
            else none
      else none

/-- `json.loads` restricted to the shape this program stores: an array of
strings (any other JSON document yields `none`, which the program never
encounters on data it wrote itself). -/
def loads (str : String) : Option (List String) :=
  let cs := str.data
  match skipWs cs with
  | [] => none
  | c :: r =>
    if c = '[' then
      match skipWs r with
      | [] => none
      | c2 :: r2 =>
        if c2 = ']' then
          if skipWs r2 = [] then some [] else none
        else
          match readElems (cs.length + 1) r with
          | some (l, rest) =>
            if skipWs rest = [] then some (l.map (fun d => String.mk d)) else none
          | none => none
    else none

/-! ### Concrete states used to instantiate the theorems -/

/-- A store holding one freshly identified grant (identifier `0`). -/
def oneGrantStore : Store :=
  (identify Store.empty "t1" "NSF Community Tech Grant" "NSF" 250000
    (some "2025-04-30") GType.federal "" (some ["IRS 501c3", "Budget narrative"])
    none "").2

/-- The grant row held by `oneGrantStore`. -/
def oneGrant : Grant :=
  (identify Store.empty "t1" "NSF Community Tech Grant" "NSF" 250000
    (some "2025-04-30") GType.federal "" (some ["IRS 501c3", "Budget narrative"])
    none "").1

/-- A store with exactly one awarded and one rejected grant (and no
submitted one), built by identifying two grants, awarding the first and
rejecting the second. -/
def decidedStore : Store :=
  let s1 := (identify Store.empty "t1" "G1" "NSF" 100000 none GType.foundation ""
    none none "").2
  let s2 := (identify s1 "t2" "G2" "NSF" 50000 none GType.foundation ""
    none none "").2
  let s3 := (award s2 "t3" 0 none none).2
  (reject s3 "t4" 1 "Missed deadline").2

/-! ### Helper lemmas -/

theorem find?_map_ite {α : Type} (p : α → Bool) (f : α → α)
    (hf : ∀ a, p a = true → p (f a) = true) (l : List α) :
    (l.map (fun a => if p a then f a else a)).find? p = (l.find? p).map f := by
  induction l with
  | nil => rfl
  | cons x xs ih =>
    by_cases hx : p x = true
    · simp only [List.map_cons, if_pos hx]
      rw [List.find?_cons_of_pos _ (hf x hx), List.find?_cons_of_pos _ hx]
      rfl
    · simp only [List.map_cons, if_neg hx]
      rw [List.find?_cons_of_neg _ hx, List.find?_cons_of_neg _ hx]
      exact ih

theorem get_grant_updateGrant (s : Store) (gid : Nat) (f : Grant → Grant)
    (hid : ∀ g, (f g).id = g.id) :
    get_grant { s with grants := updateGrant gid f s.grants } gid =
      (get_grant s gid).map f := by
  unfold get_grant updateGrant
  exact find?_map_ite (fun g => g.id == gid) f
    (fun g hg => by show ((f g).id == gid) = true; rw [hid g]; exact hg) s.grants

theorem map_proj_updateGrant {β : Type} (proj : Grant → β) (gid : Nat)
    (f : Grant → Grant) (l : List Grant) (hp : ∀ g, proj (f g) = proj g) :
    (updateGrant gid f l).map proj = l.map proj := by
  unfold updateGrant
  rw [List.map_map]
  apply List.map_congr_left
  intro g _
  by_cases hg : (g.id == gid) = true
  · simp only [Function.comp, if_pos hg, hp]
  · simp only [Function.comp, if_neg hg]

theorem transition_none (s : Store) (now : String) (gid : Nat)
    (st : GrantStatus) (notes : String) (h : get_grant s gid = none) :
    transition s now gid st notes = (none, s) := by
  simp [transition, h]

theorem transition_some (s : Store) (now : String) (gid : Nat)
    (st : GrantStatus) (notes : String) (g : Grant) (h : get_grant s gid = some g) :
    transition s now gid st notes =
      (some (applyStatus st now notes g),
       { s with grants := updateGrant gid (applyStatus st now notes) s.grants }) := by
  simp only [transition, h]
  rw [get_grant_updateGrant s gid (applyStatus st now notes) (fun _ => rfl), h]
  rfl

theorem award_none (s : Store) (now : String) (gid : Nat)
    (aa : Option Rat) (rd : Option (List String)) (h : get_grant s gid = none) :
    award s now gid aa rd = (none, s) := by
  simp [award, h]

theorem award_some (s : Store) (now : String) (gid : Nat) (g : Grant)
    (aa : Option Rat) (rd : Option (List String)) (h : get_grant s gid = some g) :
    award s now gid aa rd =
      (some (awardUpdate (aa.getD g.amount) (rd.getD []) now g),
       { s with grants :=
          updateGrant gid (awardUpdate (aa.getD g.amount) (rd.getD []) now) s.grants }) := by
  simp only [award, h]
  rw [get_grant_updateGrant s gid
    (awardUpdate (aa.getD g.amount) (rd.getD []) now) (fun _ => rfl), h]
  rfl

theorem find?_append_fresh (l : List Grant) (g : Grant) (nid : Nat)
    (hl : ∀ x ∈ l, x.id ≠ nid) (hg : g.id = nid) :
    (l ++ [g]).find? (fun x => x.id == nid) = some g := by
  rw [List.find?_append]
  have h1 : l.find? (fun x => x.id == nid) = none :=
    List.find?_eq_none.mpr (fun x hx => by simp [hl x hx])
  rw [h1]
  simp [List.find?, hg]

theorem submit_some (s : Store) (now : String) (gid : Nat) (g : Grant)
    (notes sb : String) (docs : Option (List String))
    (h : get_grant s gid = some g) :
    submit s now gid notes sb docs true =
      SubmitOutcome.ok
        (some (applyStatus GrantStatus.submitted now "" g))
        { s with
            grants := updateGrant gid (applyStatus GrantStatus.submitted now "") s.grants,
            submissions := s.submissions ++ [⟨s.nextId, gid, now, notes, sb, docs.getD [], now⟩],
            nextId := s.nextId + 1 } := by
  have h1 : get_grant { s with
      submissions := s.submissions ++ [⟨s.nextId, gid, now, notes, sb, docs.getD [], now⟩],
      nextId := s.nextId + 1 } gid = some g := h
  unfold submit
  rw [h]
  show SubmitOutcome.ok (transition _ now gid GrantStatus.submitted "").1
    (transition _ now gid GrantStatus.submitted "").2 = _
  rw [transition_some _ now gid GrantStatus.submitted "" g h1]

theorem get_grant_mk (L : List Grant) (S : List Submission) (N : List GrantNote)
    (nid : Nat) (gid : Nat) :
    get_grant ⟨L, S, N, nid⟩ gid = L.find? (fun x => x.id == gid) := rfl

theorem find?_updateGrant (gid : Nat) (f : Grant → Grant) (l : List Grant)
    (hid : ∀ g, (f g).id = g.id) :
    (updateGrant gid f l).find? (fun x => x.id == gid) =
      (l.find? (fun x => x.id == gid)).map f := by
  unfold updateGrant
  exact find?_map_ite _ f
    (fun a ha => by show ((f a).id == gid) = true; rw [hid a]; exact ha) l

/-! ### The claims -/

/-- C2: `award` with an explicit amount stores exactly that amount as the
awarded amount; `award` with the amount omitted stores the opportunity's
requested amount (which no operation ever rewrites, so it is the
originally requested one); in both cases the stored status becomes
`awarded`. -/
theorem award_sets_awarded_amount (s : Store) (now : String) (gid : Nat)
    (g : Grant) (amt : Rat) (rd rd' : Option (List String))
    (h : get_grant s gid = some g) :
    ((get_grant (award s now gid (some amt) rd).2 gid).map
        (fun gr => (gr.award_amount, gr.status)) =
      some (some amt, GrantStatus.awarded)) ∧
    ((get_grant (award s now gid none rd').2 gid).map
        (fun gr => (gr.award_amount, gr.status)) =
      some (some g.amount, GrantStatus.awarded)) := by
  constructor
  · simp only [award_some s now gid g (some amt) rd h]
    rw [get_grant_updateGrant s gid
      (awardUpdate ((some amt).getD g.amount) (rd.getD []) now) (fun _ => rfl), h]
    rfl
  · simp only [award_some s now gid g none rd' h]
    rw [get_grant_updateGrant s gid
      (awardUpdate (Option.getD none g.amount) (rd'.getD []) now) (fun _ => rfl), h]
    rfl

/-- C2 witness: the theorem applied to the store holding one identified
grant, awarding an explicit `200000` (and, in the omitted mode, the
requested `250000`). -/
theorem award_sets_awarded_amount_witness :
    get_grant oneGrantStore 0 = some oneGrant ∧
    (((get_grant (award oneGrantStore "t2" 0 (some 200000) (some ["2025-12-31"])).2 0).map
        (fun gr => (gr.award_amount, gr.status)) =
      some (some 200000, GrantStatus.awarded)) ∧
    ((get_grant (award oneGrantStore "t2" 0 none none).2 0).map
        (fun gr => (gr.award_amount, gr.status)) =
      some (some oneGrant.amount, GrantStatus.awarded))) :=
  ⟨by decide,
   award_sets_awarded_amount oneGrantStore "t2" 0 oneGrant 200000
     (some ["2025-12-31"]) none (by decide)⟩

/-- C3: `award` stores the supplied reporting-dates list when one is given,
and stores the empty list when the argument is omitted — also when the row
previously held a non-empty list, which is thereby overwritten. -/
theorem award_sets_reporting_dates (s : Store) (now : String) (gid : Nat)
    (g : Grant) (aa aa' : Option Rat) (dates : List String)
    (h : get_grant s gid = some g) :
    ((get_grant (award s now gid aa (some dates)).2 gid).map Grant.reporting_dates =
      some dates) ∧
    ((get_grant (award s now gid aa' none).2 gid).map Grant.reporting_dates =
      some []) := by
  constructor
  · simp only [award_some s now gid g aa (some dates) h]
    rw [get_grant_updateGrant s gid
      (awardUpdate (aa.getD g.amount) ((some dates).getD []) now) (fun _ => rfl), h]
    rfl
  · simp only [award_some s now gid g aa' none h]
    rw [get_grant_updateGrant s gid
      (awardUpdate (aa'.getD g.amount) (Option.getD none []) now) (fun _ => rfl), h]
    rfl

/-- C3 witness: the theorem applied to a store whose grant already carries
reporting dates (put there by a previous `award`), showing a fresh `award`
with the argument omitted overwrites them with `[]`. -/
theorem award_sets_reporting_dates_witness :
    get_grant (award oneGrantStore "t2" 0 none (some ["2025-12-31"])).2 0 =
      some (awardUpdate oneGrant.amount ["2025-12-31"] "t2" oneGrant) ∧
    (((get_grant (award (award oneGrantStore "t2" 0 none (some ["2025-12-31"])).2
          "t3" 0 none (some ["2026-06-30"])).2 0).map Grant.reporting_dates =
      some ["2026-06-30"]) ∧
    ((get_grant (award (award oneGrantStore "t2" 0 none (some ["2025-12-31"])).2
          "t3" 0 none none).2 0).map Grant.reporting_dates =
      some [])) :=
  ⟨by decide,
   award_sets_reporting_dates (award oneGrantStore "t2" 0 none (some ["2025-12-31"])).2
     "t3" 0 (awardUpdate oneGrant.amount ["2025-12-31"] "t2" oneGrant)
     none none ["2026-06-30"] (by decide)⟩

/-- C5: every transition operation called with an unknown identifier
returns `none` (absence, not an exception) and leaves the store — every
table of it — exactly as it was. -/
theorem unknown_id_is_absence (s : Store) (now : String) (gid : Nat)
    (notes asg sb : String) (docs : Option (List String)) (insert_ok : Bool)
    (aa : Option Rat) (rd : Option (List String))
    (h : get_grant s gid = none) :
    apply s now gid notes asg = (none, s) ∧
    submit s now gid notes sb docs insert_ok = SubmitOutcome.ok none s ∧
    award s now gid aa rd = (none, s) ∧
    reject s now gid notes = (none, s) ∧
    start_reporting s now gid = (none, s) ∧
    close s now gid = (none, s) := by
  refine ⟨?_, ?_, ?_, ?_, ?_, ?_⟩
  · exact transition_none s now gid _ notes h
  · simp [submit, h]
  · exact award_none s now gid aa rd h
  · exact transition_none s now gid _ notes h
  · exact transition_none s now gid _ "" h
  · exact transition_none s now gid _ "" h

/-- C5 witness: the theorem applied to the empty store at identifier `7`. -/
theorem unknown_id_is_absence_witness :
    get_grant Store.empty 7 = none ∧
    (apply Store.empty "t1" 7 "n" "a" = (none, Store.empty) ∧
    submit Store.empty "t1" 7 "n" "alice" (some ["doc.pdf"]) true =
      SubmitOutcome.ok none Store.empty ∧
    award Store.empty "t1" 7 (some 100) (some ["2026-01-01"]) = (none, Store.empty) ∧
    reject Store.empty "t1" 7 "n" = (none, Store.empty) ∧
    start_reporting Store.empty "t1" 7 = (none, Store.empty) ∧
    close Store.empty "t1" 7 = (none, Store.empty)) :=
  ⟨by decide,
   unknown_id_is_absence Store.empty "t1" 7 "n" "a" "alice" (some ["doc.pdf"]) true
     (some 100) (some ["2026-01-01"]) (by decide)⟩

/-- C6 counterexample: on the empty store — where identifier `5` is
unknown — `add_note` neither returns an absence value nor refrains from
writing: it inserts one note row recorded against the unknown identifier
and returns it. -/
theorem add_note_unknown_cex :
    get_grant Store.empty 5 = none ∧
    (add_note Store.empty "t0" 5 "call the funder" "alice").2.grant_notes.length = 1 ∧
    (add_note Store.empty "t0" 5 "call the funder" "alice").1.grant_id = 5 := by
  exact ⟨rfl, rfl, rfl⟩

/-- C6 amended: `add_note` performs no existence check at all.  For every
identifier — known or unknown — it creates exactly one note row recorded
against that identifier, returns it (never an absence value), and touches
no other table. -/
theorem add_note_always_inserts (s : Store) (now : String) (gid : Nat)
    (content author : String) :
    (add_note s now gid content author).2.grant_notes =
      s.grant_notes ++ [(add_note s now gid content author).1] ∧
    (add_note s now gid content author).1.grant_id = gid ∧
    (add_note s now gid content author).1.content = content ∧
    (add_note s now gid content author).2.grants = s.grants ∧
    (add_note s now gid content author).2.submissions = s.submissions := by
  exact ⟨rfl, rfl, rfl, rfl, rfl⟩

theorem filter_grant_id_nil (l : List Submission) (gid : Nat)
    (h : ∀ x ∈ l, x.grant_id ≠ gid) :
    l.filter (fun x => x.grant_id == gid) = [] := by
  induction l with
  | nil => rfl
  | cons x xs ih =>
    have hx : (x.grant_id == gid) = false := by
      simp [h x (List.mem_cons_self x xs)]
    rw [List.filter_cons, hx]
    simp only [Bool.false_eq_true, if_false]
    exact ih (fun y hy => h y (List.mem_cons_of_mem x hy))

theorem submit_chain_of_fresh (s1 : Store) (gid : Nat) (g0 : Grant)
    (hget : get_grant s1 gid = some g0)
    (hsubs : ∀ x ∈ s1.submissions, x.grant_id ≠ gid)
    (now1 now2 anotes aasg csb : String) (cdocs : Option (List String)) :
    ((get_grant (submit (apply s1 now1 gid anotes aasg).2 now2 gid "" csb cdocs
        true).store gid).map Grant.status = some GrantStatus.submitted) ∧
    ((get_submissions (submit (apply s1 now1 gid anotes aasg).2 now2 gid "" csb cdocs
        true).store gid).length = 1) := by
  have e1 : apply s1 now1 gid anotes aasg =
      (some (applyStatus GrantStatus.applying now1 anotes g0),
       { s1 with grants := updateGrant gid (applyStatus GrantStatus.applying now1 anotes) s1.grants }) :=
    transition_some s1 now1 gid GrantStatus.applying anotes g0 hget
  have hg2 : get_grant
      { s1 with grants := updateGrant gid (applyStatus GrantStatus.applying now1 anotes) s1.grants }
      gid = some (applyStatus GrantStatus.applying now1 anotes g0) := by
    rw [get_grant_mk,
        find?_updateGrant gid (applyStatus GrantStatus.applying now1 anotes) s1.grants
          (fun _ => rfl),
        show s1.grants.find? (fun x => x.id == gid) = some g0 from hget]
    rfl
  have e2 := submit_some _ now2 gid (applyStatus GrantStatus.applying now1 anotes g0)
    "" csb cdocs hg2
  rw [e1] at *
  constructor
  · rw [e2]
    show ((updateGrant gid (applyStatus GrantStatus.submitted now2 "")
        (updateGrant gid (applyStatus GrantStatus.applying now1 anotes) s1.grants)).find?
        (fun x => x.id == gid)).map Grant.status = some GrantStatus.submitted
    rw [find?_updateGrant gid (applyStatus GrantStatus.submitted now2 "") _ (fun _ => rfl),
        find?_updateGrant gid (applyStatus GrantStatus.applying now1 anotes) s1.grants
          (fun _ => rfl),
        show s1.grants.find? (fun x => x.id == gid) = some g0 from hget]
    rfl
  · rw [e2]
    show ((s1.submissions ++
        [(⟨s1.nextId, gid, now2, "", csb, cdocs.getD [], now2⟩ : Submission)]).filter
        (fun x => x.grant_id == gid)).length = 1
    rw [List.filter_append, filter_grant_id_nil s1.submissions gid hsubs]
    simp

/-- C1: for an existing opportunity, `submit` with a succeeding insert adds
exactly one submission row (one more row overall, one more for this grant)
and then sets the status to `submitted`; when the insert raises, the
transactional block rolls it back and the exception propagates before the
status update runs, so the whole store — status included — is exactly the
pre-call state.  And `identify` then `apply` then one `submit` on a
well-formed store leaves that opportunity in status `submitted` with
exactly one submission record. -/
theorem submit_one_row_then_status (s : Store) (now : String) (gid : Nat) (g : Grant)
    (notes sb : String) (docs : Option (List String)) (h : get_grant s gid = some g)
    (s0 : Store) (hWF : WF s0) (now0 now1 now2 title funder : String) (amount : Rat)
    (deadline : Option String) (gt : GType) (purpose : String)
    (reqs contacts : Option (List String)) (asg anotes aasg csb : String)
    (cdocs : Option (List String)) :
    ((get_grant (submit s now gid notes sb docs true).store gid).map Grant.status =
      some GrantStatus.submitted) ∧
    ((submit s now gid notes sb docs true).store.submissions.length =
      s.submissions.length + 1) ∧
    ((get_submissions (submit s now gid notes sb docs true).store gid).length =
      (get_submissions s gid).length + 1) ∧
    (submit s now gid notes sb docs false = SubmitOutcome.failed s) ∧
    ((get_grant (submit (apply (identify s0 now0 title funder amount deadline gt
        purpose reqs contacts asg).2 now1 (identify s0 now0 title funder amount
        deadline gt purpose reqs contacts asg).1.id anotes aasg).2 now2
        (identify s0 now0 title funder amount deadline gt purpose reqs contacts
        asg).1.id "" csb cdocs true).store (identify s0 now0 title funder amount
        deadline gt purpose reqs contacts asg).1.id).map Grant.status =
      some GrantStatus.submitted) ∧
    ((get_submissions (submit (apply (identify s0 now0 title funder amount deadline gt
        purpose reqs contacts asg).2 now1 (identify s0 now0 title funder amount
        deadline gt purpose reqs contacts asg).1.id anotes aasg).2 now2
        (identify s0 now0 title funder amount deadline gt purpose reqs contacts
        asg).1.id "" csb cdocs true).store (identify s0 now0 title funder amount
        deadline gt purpose reqs contacts asg).1.id).length = 1) := by
  have e := submit_some s now gid g notes sb docs h
  have hget : get_grant (identify s0 now0 title funder amount deadline gt purpose reqs
      contacts asg).2 (identify s0 now0 title funder amount deadline gt purpose reqs
      contacts asg).1.id = some (identify s0 now0 title funder amount deadline gt
      purpose reqs contacts asg).1 :=
    find?_append_fresh s0.grants
      (identify s0 now0 title funder amount deadline gt purpose reqs contacts asg).1
      s0.nextId (fun x hx => Nat.ne_of_lt (hWF.1 x hx)) rfl
  have hsubs : ∀ x ∈ (identify s0 now0 title funder amount deadline gt purpose reqs
      contacts asg).2.submissions,
      x.grant_id ≠ (identify s0 now0 title funder amount deadline gt purpose reqs
        contacts asg).1.id :=
    fun x hx => Nat.ne_of_lt (hWF.2.1 x hx).2
  have hchain := submit_chain_of_fresh
    (identify s0 now0 title funder amount deadline gt purpose reqs contacts asg).2
    (identify s0 now0 title funder amount deadline gt purpose reqs contacts asg).1.id
    (identify s0 now0 title funder amount deadline gt purpose reqs contacts asg).1
    hget hsubs now1 now2 anotes aasg csb cdocs
  refine ⟨?_, ?_, ?_, ?_, hchain.1, hchain.2⟩
  · rw [e]
    show ((updateGrant gid (applyStatus GrantStatus.submitted now "") s.grants).find?
        (fun x => x.id == gid)).map Grant.status = some GrantStatus.submitted
    rw [find?_updateGrant gid (applyStatus GrantStatus.submitted now "") s.grants
          (fun _ => rfl),
        show s.grants.find? (fun x => x.id == gid) = some g from h]
    rfl
  · rw [e]
    show (s.submissions ++
        [(⟨s.nextId, gid, now, notes, sb, docs.getD [], now⟩ : Submission)]).length =
      s.submissions.length + 1
    rw [List.length_append]
    rfl
  · rw [e]
    show ((s.submissions ++
        [(⟨s.nextId, gid, now, notes, sb, docs.getD [], now⟩ : Submission)]).filter
        (fun x => x.grant_id == gid)).length =
      (s.submissions.filter (fun x => x.grant_id == gid)).length + 1
    rw [List.filter_append, List.length_append]
    simp
  · unfold submit
    rw [h]
    rfl

/-- C1 witness: the success and failure modes on the store holding one
identified grant, and the identify–apply–submit chain from the empty
store. -/
theorem submit_one_row_then_status_witness :
    get_grant oneGrantStore 0 = some oneGrant ∧
    WF Store.empty ∧
    (((get_grant (submit oneGrantStore "t2" 0 "n" "Alice Chen"
        (some ["budget.pdf", "narrative.pdf"]) true).store 0).map Grant.status =
      some GrantStatus.submitted) ∧
    ((submit oneGrantStore "t2" 0 "n" "Alice Chen"
        (some ["budget.pdf", "narrative.pdf"]) true).store.submissions.length =
      oneGrantStore.submissions.length + 1) ∧
    ((get_submissions (submit oneGrantStore "t2" 0 "n" "Alice Chen"
        (some ["budget.pdf", "narrative.pdf"]) true).store 0).length =
      (get_submissions oneGrantStore 0).length + 1) ∧
    (submit oneGrantStore "t2" 0 "n" "Alice Chen"
        (some ["budget.pdf", "narrative.pdf"]) false =
      SubmitOutcome.failed oneGrantStore) ∧
    ((get_grant (submit (apply (identify Store.empty "u0" "G2" "F2" 75000 none
        GType.state "" none none "").2 "u1" (identify Store.empty "u0" "G2" "F2" 75000
        none GType.state "" none none "").1.id "started" "").2 "u2"
        (identify Store.empty "u0" "G2" "F2" 75000 none GType.state "" none none
        "").1.id "" "Bob" none true).store (identify Store.empty "u0" "G2" "F2" 75000
        none GType.state "" none none "").1.id).map Grant.status =
      some GrantStatus.submitted) ∧
    ((get_submissions (submit (apply (identify Store.empty "u0" "G2" "F2" 75000 none
        GType.state "" none none "").2 "u1" (identify Store.empty "u0" "G2" "F2" 75000
        none GType.state "" none none "").1.id "started" "").2 "u2"
        (identify Store.empty "u0" "G2" "F2" 75000 none GType.state "" none none
        "").1.id "" "Bob" none true).store (identify Store.empty "u0" "G2" "F2" 75000
        none GType.state "" none none "").1.id).length = 1)) :=
  ⟨by decide, by simp [WF, Store.empty],
   submit_one_row_then_status oneGrantStore "t2" 0 oneGrant "n" "Alice Chen"
     (some ["budget.pdf", "narrative.pdf"]) (by decide) Store.empty
     (by simp [WF, Store.empty]) "u0" "u1" "u2" "G2" "F2" 75000 none GType.state ""
     none none "" "started" "" "Bob" none⟩

/-- C8: on a well-formed store, `identify` returns an opportunity in
status `identified` whose creation and update timestamps both equal the
supplied current time, whose identifier differs from every identifier the
store has ever handed out (grants, submissions and notes alike), and which
is inserted into the grants table under that identifier. -/
theorem identify_fresh (s : Store) (now title funder : String) (amount : Rat)
    (deadline : Option String) (gt : GType) (purpose : String)
    (reqs contacts : Option (List String)) (asg : String) (hWF : WF s) :
    (identify s now title funder amount deadline gt purpose reqs contacts asg).1.status =
      GrantStatus.identified ∧
    (identify s now title funder amount deadline gt purpose reqs contacts asg).1.created_at =
      now ∧
    (identify s now title funder amount deadline gt purpose reqs contacts asg).1.updated_at =
      now ∧
    (∀ g0 ∈ s.grants,
      g0.id ≠ (identify s now title funder amount deadline gt purpose reqs contacts asg).1.id) ∧
    (∀ sub ∈ s.submissions,
      sub.id ≠ (identify s now title funder amount deadline gt purpose reqs contacts asg).1.id) ∧
    (∀ n ∈ s.grant_notes,
      n.id ≠ (identify s now title funder amount deadline gt purpose reqs contacts asg).1.id) ∧
    get_grant (identify s now title funder amount deadline gt purpose reqs contacts asg).2
        (identify s now title funder amount deadline gt purpose reqs contacts asg).1.id =
      some (identify s now title funder amount deadline gt purpose reqs contacts asg).1 := by
  refine ⟨rfl, rfl, rfl, ?_, ?_, ?_, ?_⟩
  · exact fun g0 hg0 => Nat.ne_of_lt (hWF.1 g0 hg0)
  · exact fun sub hsub => Nat.ne_of_lt (hWF.2.1 sub hsub).1
  · exact fun n hn => Nat.ne_of_lt (hWF.2.2 n hn)
  · exact find?_append_fresh s.grants
      (identify s now title funder amount deadline gt purpose reqs contacts asg).1
      s.nextId (fun x hx => Nat.ne_of_lt (hWF.1 x hx)) rfl

/-- C8 witness: `identify` on the (well-formed) empty store. -/
theorem identify_fresh_witness :
    WF Store.empty ∧
    (oneGrant.status = GrantStatus.identified ∧
     oneGrant.created_at = "t1" ∧
     oneGrant.updated_at = "t1" ∧
     (∀ g0 ∈ Store.empty.grants, g0.id ≠ oneGrant.id) ∧
     (∀ sub ∈ Store.empty.submissions, sub.id ≠ oneGrant.id) ∧
     (∀ n ∈ Store.empty.grant_notes, n.id ≠ oneGrant.id) ∧
     get_grant oneGrantStore oneGrant.id = some oneGrant) :=
  ⟨by simp [WF, Store.empty],
   identify_fresh Store.empty "t1" "NSF Community Tech Grant" "NSF" 250000
     (some "2025-04-30") GType.federal "" (some ["IRS 501c3", "Budget narrative"])
     none "" (by simp [WF, Store.empty])⟩

/-- C9: every operation of the service preserves the row identifiers in
place (the identifier column of existing rows is never rewritten; new rows
are only appended), and the status column of every row always holds one of
the seven `GrantStatus` strings — in particular in every reachable store
state. -/
theorem step_preserves_invariants (s s' : Store) (h : Step s s') :
    (s.grants.map Grant.id <+: s'.grants.map Grant.id) ∧
    (∀ g ∈ s'.grants, g.status.value ∈
      ["identified", "applying", "submitted", "awarded", "rejected", "reporting", "closed"]) ∧
    (∀ s0 : Store, Reachable s0 → ∀ g ∈ s0.grants, g.status.value ∈
      ["identified", "applying", "submitted", "awarded", "rejected", "reporting", "closed"]) := by
  have hstatus : ∀ st : GrantStatus, st.value ∈
      ["identified", "applying", "submitted", "awarded", "rejected", "reporting", "closed"] := by
    intro st; cases st <;> decide
  refine ⟨?_, fun g _ => hstatus g.status, fun s0 _ g _ => hstatus g.status⟩
  have htrans : ∀ (now : String) (gid : Nat) (st : GrantStatus) (notes : String),
      s.grants.map Grant.id <+: (transition s now gid st notes).2.grants.map Grant.id := by
    intro now gid st notes
    cases hg : get_grant s gid with
    | none => rw [transition_none s now gid st notes hg]
    | some g =>
      rw [transition_some s now gid st notes g hg]
      rw [map_proj_updateGrant Grant.id gid (applyStatus st now notes) s.grants (fun _ => rfl)]
  cases h with
  | identify now title funder amount deadline gt purpose reqs contacts asg =>
    rw [show (identify s now title funder amount deadline gt purpose reqs
        contacts asg).2.grants = s.grants ++
        [(identify s now title funder amount deadline gt purpose reqs contacts asg).1]
      from rfl]
    rw [List.map_append]
    exact List.prefix_append _ _
  | apply now gid notes asg => exact htrans now gid GrantStatus.applying notes
  | reject now gid notes => exact htrans now gid GrantStatus.rejected notes
  | start_reporting now gid => exact htrans now gid GrantStatus.reporting ""
  | close now gid => exact htrans now gid GrantStatus.closed ""
  | add_note now gid content author => exact List.prefix_refl _
  | award now gid aa rd =>
    cases hg : get_grant s gid with
    | none => rw [award_none s now gid aa rd hg]
    | some g =>
      rw [award_some s now gid g aa rd hg]
      rw [map_proj_updateGrant Grant.id gid
        (awardUpdate (aa.getD g.amount) (rd.getD []) now) s.grants (fun _ => rfl)]
  | submit now gid notes sb docs insert_ok =>
    cases hg : get_grant s gid with
    | none =>
      unfold submit
      rw [hg]
      exact List.prefix_refl _
    | some g =>
      cases insert_ok with
      | false =>
        unfold submit
        rw [hg]
        exact List.prefix_refl _
      | true =>
        rw [submit_some s now gid g notes sb docs hg]
        show s.grants.map Grant.id <+:
          (updateGrant gid (applyStatus GrantStatus.submitted now "") s.grants).map Grant.id
        rw [map_proj_updateGrant Grant.id gid
          (applyStatus GrantStatus.submitted now "") s.grants (fun _ => rfl)]

/-- C9 witness: one concrete step (the `identify` producing
`oneGrantStore`) together with the invariant conclusions for it. -/
theorem step_preserves_invariants_witness :
    Step Store.empty oneGrantStore ∧
    ((Store.empty.grants.map Grant.id <+: oneGrantStore.grants.map Grant.id) ∧
     (∀ g ∈ oneGrantStore.grants, g.status.value ∈
       ["identified", "applying", "submitted", "awarded", "rejected", "reporting", "closed"]) ∧
     (∀ s0 : Store, Reachable s0 → ∀ g ∈ s0.grants, g.status.value ∈
       ["identified", "applying", "submitted", "awarded", "rejected", "reporting", "closed"])) :=
  ⟨Step.identify Store.empty "t1" "NSF Community Tech Grant" "NSF" 250000
     (some "2025-04-30") GType.federal "" (some ["IRS 501c3", "Budget narrative"]) none "",
   step_preserves_invariants Store.empty oneGrantStore
     (Step.identify Store.empty "t1" "NSF Community Tech Grant" "NSF" 250000
       (some "2025-04-30") GType.federal "" (some ["IRS 501c3", "Budget narrative"]) none "")⟩

/-- C4: `success_rate` counts exactly the grants whose status is
`submitted`, `awarded` or `rejected` (restricted to the funder when a
filter is given); its ratio is `awarded / (awarded + rejected)` rounded to
three decimals, and `0` — not an error — when no grant is decided.  On the
store with exactly one awarded and one rejected grant (none submitted) it
reports `1/2` with `submitted = 0`. -/
theorem success_rate_correct (s : Store) (funder_filter : Option String) :
    ((success_rate s funder_filter).awarded =
      s.grants.countP (fun g =>
        (g.status == GrantStatus.awarded) && funderMatches funder_filter g)) ∧
    ((success_rate s funder_filter).rejected =
      s.grants.countP (fun g =>
        (g.status == GrantStatus.rejected) && funderMatches funder_filter g)) ∧
    ((success_rate s funder_filter).submitted =
      s.grants.countP (fun g =>
        (g.status == GrantStatus.submitted) && funderMatches funder_filter g)) ∧
    ((success_rate s funder_filter).success_rate =
      (if (s.grants.countP (fun g =>
            (g.status == GrantStatus.awarded) && funderMatches funder_filter g) +
          s.grants.countP (fun g =>
            (g.status == GrantStatus.rejected) && funderMatches funder_filter g)) == 0
        then 0
        else round3
          ((s.grants.countP (fun g =>
              (g.status == GrantStatus.awarded) && funderMatches funder_filter g) : Rat) /
           ((s.grants.countP (fun g =>
              (g.status == GrantStatus.awarded) && funderMatches funder_filter g) +
             s.grants.countP (fun g =>
              (g.status == GrantStatus.rejected) && funderMatches funder_filter g) : Nat) :
            Rat)))) ∧
    ((success_rate Store.empty funder_filter).success_rate = 0) ∧
    ((success_rate decidedStore none).success_rate = 1 / 2) ∧
    ((success_rate decidedStore none).submitted = 0) := by
  have key : ∀ (st : GrantStatus), statusDecided st = true → ∀ g : Grant,
      ((g.status == st) && (statusDecided g.status && funderMatches funder_filter g)) =
      ((g.status == st) && funderMatches funder_filter g) := by
    intro st hst g
    by_cases hb : (g.status == st) = true
    · have hgst : g.status = st := by exact_mod_cast beq_iff_eq.mp hb
      rw [hb, hgst, hst]
      simp
    · have hb' : (g.status == st) = false := eq_false_of_ne_true hb
      rw [hb']
      simp
  have hcount : ∀ (st : GrantStatus), statusDecided st = true →
      ((s.grants.filter (fun g => statusDecided g.status &&
          funderMatches funder_filter g)).filter (fun g => g.status == st)).length =
      s.grants.countP (fun g => (g.status == st) && funderMatches funder_filter g) := by
    intro st hst
    rw [List.filter_filter]
    rw [← List.countP_eq_length_filter]
    exact List.countP_congr (fun g _ => by rw [key st hst g])
  have hA := hcount GrantStatus.awarded rfl
  have hR := hcount GrantStatus.rejected rfl
  have hS := hcount GrantStatus.submitted rfl
  refine ⟨hA, hR, hS, ?_, rfl, ?_, rfl⟩
  · show (if (((s.grants.filter (fun g => statusDecided g.status &&
          funderMatches funder_filter g)).filter
          (fun g => g.status == GrantStatus.awarded)).length +
        ((s.grants.filter (fun g => statusDecided g.status &&
          funderMatches funder_filter g)).filter
          (fun g => g.status == GrantStatus.rejected)).length) == 0
      then (0 : Rat)
      else round3 ((((s.grants.filter (fun g => statusDecided g.status &&
          funderMatches funder_filter g)).filter
          (fun g => g.status == GrantStatus.awarded)).length : Rat) /
        ((((s.grants.filter (fun g => statusDecided g.status &&
          funderMatches funder_filter g)).filter
          (fun g => g.status == GrantStatus.awarded)).length +
         ((s.grants.filter (fun g => statusDecided g.status &&
          funderMatches funder_filter g)).filter
          (fun g => g.status == GrantStatus.rejected)).length : Nat) : Rat))) = _
    rw [hA, hR]
  · show round3 ((((1:Nat)):Rat) / (((2:Nat)):Rat)) = 1 / 2
    rw [show ((((1:Nat)):Rat) / (((2:Nat)):Rat)) = ((1:Rat)/2) by norm_num]
    unfold round3
    rw [show ((1:Rat)/2 * 1000) = ((500:Int):Rat) by norm_num]
    rw [round_intCast]
    norm_num

/-- C10: the `assigned_to` argument of `apply` is dead: the result does not
depend on it, and the stored assignee of every grant row — identified by
its id — is exactly what it was before the call. -/
theorem apply_ignores_assigned_to (s : Store) (now : String) (gid : Nat)
    (notes a1 a2 : String) :
    apply s now gid notes a1 = apply s now gid notes a2 ∧
    (apply s now gid notes a1).2.grants.map (fun g => (g.id, g.assigned_to)) =
      s.grants.map (fun g => (g.id, g.assigned_to)) := by
  refine ⟨rfl, ?_⟩
  unfold apply
  cases hg : get_grant s gid with
  | none => rw [transition_none s now gid _ notes hg]
  | some g =>
    rw [transition_some s now gid _ notes g hg]
    exact map_proj_updateGrant _ gid _ s.grants (fun _ => rfl)

/-! ### C7: the serialization round trip -/

theorem hexVal_toHexDigit (d : Nat) (h : d < 16) : hexVal (toHexDigit d) = some d := by
  interval_cases d <;> decide

theorem hex4val_hex4 (n : Nat) (h : n < 65536) :
    hex4val (hexDigitAt n 4096) (hexDigitAt n 256) (hexDigitAt n 16) (hexDigitAt n 1) =
      some n := by
  have hm : ∀ x : Nat, x % 16 < 16 := fun x => Nat.mod_lt x (by decide)
  unfold hex4val hexDigitAt
  rw [hexVal_toHexDigit _ (hm _), hexVal_toHexDigit _ (hm _),
      hexVal_toHexDigit _ (hm _), hexVal_toHexDigit _ (hm _)]
  show some ((((n / 4096 % 16) * 16 + n / 256 % 16) * 16 + n / 16 % 16) * 16 + n / 1 % 16) =
    some n
  exact congrArg some (by omega)

theorem rsb_succ (fuel : Nat) (c : Char) (rest : List Char) :
    readStringBody (fuel + 1) (c :: rest) =
      (if c = quoteChar then some ([], rest)
       else if c = backslashChar then
         (match decodeEscape rest with
          | some (ch, r) => (readStringBody fuel r).map (fun p => (ch :: p.1, p.2))
          | none => none)
       else if c.toNat < 32 then none
       else (readStringBody fuel rest).map (fun p => (c :: p.1, p.2))) := rfl

theorem decodeEscape_simple (e ch : Char) (r : List Char) (hu : ¬ e = 'u')
    (h : simpleUnescape e = some ch) : decodeEscape (e :: r) = some (ch, r) := by
  show (if e = 'u' then decodeUnicode r
    else match simpleUnescape e with
         | some ch => some (ch, r)
         | none => none) = some (ch, r)
  rw [if_neg hu, h]

theorem decodeEscape_u (r : List Char) : decodeEscape ('u' :: r) = decodeUnicode r := by
  show (if 'u' = 'u' then decodeUnicode r
    else match simpleUnescape 'u' with
         | some ch => some (ch, r)
         | none => none) = decodeUnicode r
  rw [if_pos rfl]

theorem decodeUnicode_cons (t1 t2 t3 t4 : Char) (cs : List Char) :
    decodeUnicode (t1 :: t2 :: t3 :: t4 :: cs) =
      (match hex4val t1 t2 t3 t4 with
       | none => none
       | some n =>
         if n < 55296 ∨ 57344 ≤ n then some (Char.ofNat n, cs)
         else if n < 56320 then
           (match cs with
            | b1 :: u1 :: a2 :: b2 :: c3 :: d2 :: r3 =>
              if b1 = backslashChar ∧ u1 = 'u' then
                (match hex4val a2 b2 c3 d2 with
                 | some m =>
                   if 56320 ≤ m ∧ m < 57344 then
                     some (Char.ofNat (65536 + (n - 55296) * 1024 + (m - 56320)), r3)
                   else none
                 | none => none)
              else none
            | _ => none)
         else none) := rfl

theorem decodeUnicode_bmp (n : Nat) (h : n < 65536) (hv : n < 55296 ∨ 57344 ≤ n)
    (cs : List Char) :
    decodeUnicode (hexDigitAt n 4096 :: hexDigitAt n 256 ::
      hexDigitAt n 16 :: hexDigitAt n 1 :: cs) =
      some (Char.ofNat n, cs) := by
  rw [decodeUnicode_cons, hex4val_hex4 n h]
  show (if n < 55296 ∨ 57344 ≤ n then some (Char.ofNat n, cs) else _) = _
  rw [if_pos hv]

theorem decodeUnicode_pair (n m : Nat) (hn1 : 55296 ≤ n) (hn2 : n < 56320)
    (hm1 : 56320 ≤ m) (hm2 : m < 57344) (cs : List Char) :
    decodeUnicode (hexDigitAt n 4096 :: hexDigitAt n 256 ::
      hexDigitAt n 16 :: hexDigitAt n 1 :: backslashChar :: 'u' ::
      hexDigitAt m 4096 :: hexDigitAt m 256 ::
      hexDigitAt m 16 :: hexDigitAt m 1 :: cs) =
      some (Char.ofNat (65536 + (n - 55296) * 1024 + (m - 56320)), cs) := by
  rw [decodeUnicode_cons, hex4val_hex4 n (by omega)]
  show (if n < 55296 ∨ 57344 ≤ n then _ else
    if n < 56320 then
      (if backslashChar = backslashChar ∧ 'u' = 'u' then
        (match hex4val (hexDigitAt m 4096) (hexDigitAt m 256)
           (hexDigitAt m 16) (hexDigitAt m 1) with
         | some m' =>
           if 56320 ≤ m' ∧ m' < 57344 then
             some (Char.ofNat (65536 + (n - 55296) * 1024 + (m' - 56320)), cs)
           else none
         | none => none)
      else none)
    else none) = _
  have hno : ¬(n < 55296 ∨ 57344 ≤ n) := by omega
  rw [if_neg hno, if_pos hn2, if_pos ⟨rfl, rfl⟩, hex4val_hex4 m (by omega)]
  show (if 56320 ≤ m ∧ m < 57344 then
      some (Char.ofNat (65536 + (n - 55296) * 1024 + (m - 56320)), cs)
    else none) = _
  rw [if_pos ⟨hm1, hm2⟩]

theorem escapeChar_plain (c : Char) (h1 : 32 ≤ c.toNat) (h2 : c.toNat ≤ 126)
    (h3 : ¬ c.toNat = 34) (h4 : ¬ c.toNat = 92) : escapeChar c = [c] := by
  have hctl : ∀ k : Nat, k < 32 → ¬ c.toNat = k := fun k hk he => by omega
  unfold escapeChar
  rw [if_neg h3, if_neg h4, if_neg (hctl 8 (by decide)), if_neg (hctl 9 (by decide)),
      if_neg (hctl 10 (by decide)), if_neg (hctl 12 (by decide)),
      if_neg (hctl 13 (by decide)), if_pos ⟨h1, h2⟩]

theorem escapeChar_bmp (c : Char) (hval : c.toNat < 65536)
    (hplain : ¬ (32 ≤ c.toNat ∧ c.toNat ≤ 126))
    (h8 : ¬ c.toNat = 8) (h9 : ¬ c.toNat = 9) (h10 : ¬ c.toNat = 10)
    (h12 : ¬ c.toNat = 12) (h13 : ¬ c.toNat = 13) :
    escapeChar c = backslashChar :: 'u' :: hex4 c.toNat := by
  have h34 : ¬ c.toNat = 34 := fun he => hplain (by omega)
  have h92 : ¬ c.toNat = 92 := fun he => hplain (by omega)
  unfold escapeChar
  rw [if_neg h34, if_neg h92, if_neg h8, if_neg h9, if_neg h10,
      if_neg h12, if_neg h13, if_neg hplain, if_pos hval]

theorem escapeChar_astral (c : Char) (hval : ¬ c.toNat < 65536) :
    escapeChar c = backslashChar :: 'u' :: hex4 (55296 + (c.toNat - 65536) / 1024) ++
      backslashChar :: 'u' :: hex4 (56320 + (c.toNat - 65536) % 1024) := by
  have hbig : ∀ k : Nat, k < 65536 → ¬ c.toNat = k := fun k hk he => by omega
  have hplain : ¬ (32 ≤ c.toNat ∧ c.toNat ≤ 126) := fun hp => by omega
  unfold escapeChar
  rw [if_neg (hbig 34 (by decide)), if_neg (hbig 92 (by decide)),
      if_neg (hbig 8 (by decide)), if_neg (hbig 9 (by decide)),
      if_neg (hbig 10 (by decide)), if_neg (hbig 12 (by decide)),
      if_neg (hbig 13 (by decide)), if_neg hplain, if_neg hval]

theorem rsb_esc_simple_case (fuel : Nat) (c X : Char) (cs : List Char)
    (hesc : escapeChar c = [backslashChar, X])
    (hX : decodeEscape (X :: cs) = some (c, cs)) :
    readStringBody (fuel + 1) (escapeChar c ++ cs) =
      (readStringBody fuel cs).map (fun p => (c :: p.1, p.2)) := by
  rw [hesc, show ([backslashChar, X] ++ cs) = backslashChar :: X :: cs from rfl,
      rsb_succ, if_neg (by decide : ¬(backslashChar = quoteChar)), if_pos rfl, hX]

theorem char_eq_ofNat (c : Char) (k : Nat) (h : c.toNat = k) : c = Char.ofNat k :=
  (Char.ofNat_toNat c).symm.trans (congrArg Char.ofNat h)

theorem char_valid_ranges (c : Char) :
    c.toNat < 55296 ∨ (57344 ≤ c.toNat ∧ c.toNat < 1114112) := c.valid

theorem rsb_escapeChar (fuel : Nat) (c : Char) (cs : List Char) :
    readStringBody (fuel + 1) (escapeChar c ++ cs) =
      (readStringBody fuel cs).map (fun p => (c :: p.1, p.2)) := by
  by_cases h34 : c.toNat = 34
  · rw [char_eq_ofNat c 34 h34]
    exact rsb_esc_simple_case fuel _ quoteChar cs (by decide)
      (decodeEscape_simple quoteChar _ cs (by decide) (by decide))
  by_cases h92 : c.toNat = 92
  · rw [char_eq_ofNat c 92 h92]
    exact rsb_esc_simple_case fuel _ backslashChar cs (by decide)
      (decodeEscape_simple backslashChar _ cs (by decide) (by decide))
  by_cases h8 : c.toNat = 8
  · rw [char_eq_ofNat c 8 h8]
    exact rsb_esc_simple_case fuel _ 'b' cs (by decide)
      (decodeEscape_simple 'b' _ cs (by decide) (by decide))
  by_cases h9 : c.toNat = 9
  · rw [char_eq_ofNat c 9 h9]
    exact rsb_esc_simple_case fuel _ 't' cs (by decide)
      (decodeEscape_simple 't' _ cs (by decide) (by decide))
  by_cases h10 : c.toNat = 10
  · rw [char_eq_ofNat c 10 h10]
    exact rsb_esc_simple_case fuel _ 'n' cs (by decide)
      (decodeEscape_simple 'n' _ cs (by decide) (by decide))
  by_cases h12 : c.toNat = 12
  · rw [char_eq_ofNat c 12 h12]
    exact rsb_esc_simple_case fuel _ 'f' cs (by decide)
      (decodeEscape_simple 'f' _ cs (by decide) (by decide))
  by_cases h13 : c.toNat = 13
  · rw [char_eq_ofNat c 13 h13]
    exact rsb_esc_simple_case fuel _ 'r' cs (by decide)
      (decodeEscape_simple 'r' _ cs (by decide) (by decide))
  by_cases hplain : 32 ≤ c.toNat ∧ c.toNat ≤ 126
  · rw [escapeChar_plain c hplain.1 hplain.2 h34 h92,
        show ([c] ++ cs) = c :: cs from rfl, rsb_succ,
        if_neg (show ¬ c = quoteChar from fun h => h34 (by rw [h]; decide)),
        if_neg (show ¬ c = backslashChar from fun h => h92 (by rw [h]; decide)),
        if_neg (show ¬ c.toNat < 32 by omega)]
  by_cases hbmp : c.toNat < 65536
  · have hvr : c.toNat < 55296 ∨ 57344 ≤ c.toNat := by
      rcases char_valid_ranges c with h | h
      · exact Or.inl h
      · exact Or.inr h.1
    rw [escapeChar_bmp c hbmp hplain h8 h9 h10 h12 h13,
        show (backslashChar :: 'u' :: hex4 c.toNat) ++ cs =
          backslashChar :: 'u' :: hexDigitAt c.toNat 4096 ::
          hexDigitAt c.toNat 256 :: hexDigitAt c.toNat 16 ::
          hexDigitAt c.toNat 1 :: cs from rfl,
        rsb_succ, if_neg (by decide : ¬(backslashChar = quoteChar)), if_pos rfl,
        decodeEscape_u, decodeUnicode_bmp c.toNat hbmp hvr cs]
    show (readStringBody fuel cs).map (fun p => (Char.ofNat c.toNat :: p.1, p.2)) = _
    rw [Char.ofNat_toNat]
  · have hvmax : c.toNat < 1114112 := by
      rcases char_valid_ranges c with h | h
      · omega
      · exact h.2
    rw [escapeChar_astral c hbmp,
        show (backslashChar :: 'u' :: hex4 (55296 + (c.toNat - 65536) / 1024) ++
            backslashChar :: 'u' :: hex4 (56320 + (c.toNat - 65536) % 1024)) ++ cs =
          backslashChar :: 'u' ::
          hexDigitAt (55296 + (c.toNat - 65536) / 1024) 4096 ::
          hexDigitAt (55296 + (c.toNat - 65536) / 1024) 256 ::
          hexDigitAt (55296 + (c.toNat - 65536) / 1024) 16 ::
          hexDigitAt (55296 + (c.toNat - 65536) / 1024) 1 ::
          backslashChar :: 'u' ::
          hexDigitAt (56320 + (c.toNat - 65536) % 1024) 4096 ::
          hexDigitAt (56320 + (c.toNat - 65536) % 1024) 256 ::
          hexDigitAt (56320 + (c.toNat - 65536) % 1024) 16 ::
          hexDigitAt (56320 + (c.toNat - 65536) % 1024) 1 :: cs from rfl,
        rsb_succ, if_neg (by decide : ¬(backslashChar = quoteChar)), if_pos rfl,
        decodeEscape_u,
        decodeUnicode_pair (55296 + (c.toNat - 65536) / 1024)
          (56320 + (c.toNat - 65536) % 1024) (by omega) (by omega) (by omega)
          (by omega) cs]
    show (readStringBody fuel cs).map (fun p =>
      (Char.ofNat (65536 + ((55296 + (c.toNat - 65536) / 1024) - 55296) * 1024 +
        ((56320 + (c.toNat - 65536) % 1024) - 56320)) :: p.1, p.2)) = _
    rw [show 65536 + ((55296 + (c.toNat - 65536) / 1024) - 55296) * 1024 +
        ((56320 + (c.toNat - 65536) % 1024) - 56320) = c.toNat from by omega,
        Char.ofNat_toNat]

theorem escapeChar_length (c : Char) : 1 ≤ (escapeChar c).length := by
  unfold escapeChar
  repeat' split
  all_goals simp [hex4]

theorem escapeString_cons (c : Char) (s : List Char) :
    escapeString (c :: s) = escapeChar c ++ escapeString s := rfl

theorem escapeString_length (s : List Char) : s.length ≤ (escapeString s).length := by
  induction s with
  | nil => simp [escapeString]
  | cons c cs ih =>
    rw [escapeString_cons, List.length_append]
    have := escapeChar_length c
    simp only [List.length_cons]
    omega

theorem rsb_escapeString (s : List Char) (cs : List Char) (fuel : Nat)
    (h : s.length < fuel) :
    readStringBody fuel (escapeString s ++ quoteChar :: cs) = some (s, cs) := by
  induction s generalizing fuel cs with
  | nil =>
    obtain ⟨f, rfl⟩ : ∃ f, fuel = f + 1 := ⟨fuel - 1, by omega⟩
    show readStringBody (f + 1) (quoteChar :: cs) = some ([], cs)
    rw [rsb_succ, if_pos rfl]
  | cons c s ih =>
    obtain ⟨f, rfl⟩ : ∃ f, fuel = f + 1 := ⟨fuel - 1, by omega⟩
    rw [show escapeString (c :: s) ++ quoteChar :: cs =
        escapeChar c ++ (escapeString s ++ quoteChar :: cs) from by
      rw [escapeString_cons, List.append_assoc]]
    rw [rsb_escapeChar f c _]
    rw [ih cs f (by simp only [List.length_cons] at h; omega)]
    rfl

theorem skipWs_not_ws (c : Char) (x : List Char)
    (h : ¬(c = ' ' ∨ c = Char.ofNat 9 ∨ c = Char.ofNat 10 ∨ c = Char.ofNat 13)) :
    skipWs (c :: x) = c :: x := by
  show (if c = ' ' ∨ c = Char.ofNat 9 ∨ c = Char.ofNat 10 ∨ c = Char.ofNat 13 then
    skipWs x else c :: x) = c :: x
  rw [if_neg h]

theorem skipWs_space (x : List Char) : skipWs (' ' :: x) = skipWs x := by
  show (if ' ' = ' ' ∨ ' ' = Char.ofNat 9 ∨ ' ' = Char.ofNat 10 ∨ ' ' = Char.ofNat 13
    then skipWs x else ' ' :: x) = skipWs x
  rw [if_pos (Or.inl rfl)]

theorem readElems_succ (fuel : Nat) (cs : List Char) :
    readElems (fuel + 1) cs =
      (match skipWs cs with
       | [] => none
       | c :: r =>
         if c = quoteChar then
           (match readStringBody (r.length + 1) r with
            | none => none
            | some (str, r1) =>
              (match skipWs r1 with
               | [] => none
               | c2 :: r2 =>
                 if c2 = ',' then (readElems fuel r2).map (fun p => (str :: p.1, p.2))
                 else if c2 = ']' then some ([str], r2)
                 else none))
         else none) := rfl

theorem readElems_quote (fuel : Nat) (r : List Char) :
    readElems (fuel + 1) (quoteChar :: r) =
      (match readStringBody (r.length + 1) r with
       | none => none
       | some (str, r1) =>
         (match skipWs r1 with
          | [] => none
          | c2 :: r2 =>
            if c2 = ',' then (readElems fuel r2).map (fun p => (str :: p.1, p.2))
            else if c2 = ']' then some ([str], r2)
            else none)) := by
  rw [readElems_succ, skipWs_not_ws quoteChar r (by decide)]
  show (if quoteChar = quoteChar then
      (match readStringBody (r.length + 1) r with
       | none => none
       | some (str, r1) =>
         (match skipWs r1 with
          | [] => none
          | c2 :: r2 =>
            if c2 = ',' then (readElems fuel r2).map (fun p => (str :: p.1, p.2))
            else if c2 = ']' then some ([str], r2)
            else none))
    else none) = _
  rw [if_pos rfl]

theorem readElems_space (fuel : Nat) (x : List Char) :
    readElems fuel (' ' :: x) = readElems fuel x := by
  cases fuel with
  | zero => rfl
  | succ f => rw [readElems_succ, readElems_succ, skipWs_space]

theorem encodeElems_length_ge (s : List Char) (l : List (List Char)) :
    l.length ≤ (encodeElems (s :: l)).length := by
  induction l generalizing s with
  | nil => simp
  | cons t rest ih =>
    rw [show encodeElems (s :: t :: rest) =
        encodeString s ++ ',' :: ' ' :: encodeElems (t :: rest) from rfl]
    rw [List.length_append]
    have := ih t
    simp only [List.length_cons]
    omega

theorem readElems_encode (l : List (List Char)) (str cs : List Char) (fuel : Nat)
    (hfuel : l.length < fuel) :
    readElems fuel (encodeElems (str :: l) ++ ']' :: cs) = some (str :: l, cs) := by
  induction l generalizing str cs fuel with
  | nil =>
    obtain ⟨f, rfl⟩ : ∃ f, fuel = f + 1 := ⟨fuel - 1, by omega⟩
    rw [show encodeElems [str] ++ ']' :: cs =
        quoteChar :: (escapeString str ++ quoteChar :: (']' :: cs)) from by
      show (quoteChar :: escapeString str ++ [quoteChar]) ++ ']' :: cs = _
      simp [List.append_assoc]]
    rw [readElems_quote]
    rw [rsb_escapeString str (']' :: cs) _ (by
      have h1 := escapeString_length str
      simp only [List.length_append, List.length_cons]
      omega)]
    show (match skipWs (']' :: cs) with
      | [] => none
      | c2 :: r2 =>
        if c2 = ',' then (readElems f r2).map (fun p => (str :: p.1, p.2))
        else if c2 = ']' then some ([str], r2)
        else none) = some ([str], cs)
    rw [skipWs_not_ws ']' cs (by decide)]
    show (if ']' = ',' then (readElems f cs).map (fun p => (str :: p.1, p.2))
      else if ']' = ']' then some ([str], cs)
      else none) = some ([str], cs)
    rw [if_neg (by decide), if_pos rfl]
  | cons t rest ih =>
    obtain ⟨f, rfl⟩ : ∃ f, fuel = f + 1 := ⟨fuel - 1, by omega⟩
    rw [show encodeElems (str :: t :: rest) ++ ']' :: cs =
        quoteChar :: (escapeString str ++ quoteChar ::
          (',' :: ' ' :: (encodeElems (t :: rest) ++ ']' :: cs))) from by
      show (encodeString str ++ ',' :: ' ' :: encodeElems (t :: rest)) ++ ']' :: cs = _
      show ((quoteChar :: escapeString str ++ [quoteChar]) ++
        ',' :: ' ' :: encodeElems (t :: rest)) ++ ']' :: cs = _
      simp [List.append_assoc]]
    rw [readElems_quote]
    rw [rsb_escapeString str (',' :: ' ' :: (encodeElems (t :: rest) ++ ']' :: cs)) _ (by
      have h1 := escapeString_length str
      simp only [List.length_append, List.length_cons]
      omega)]
    show (match skipWs (',' :: ' ' :: (encodeElems (t :: rest) ++ ']' :: cs)) with
      | [] => none
      | c2 :: r2 =>
        if c2 = ',' then (readElems f r2).map (fun p => (str :: p.1, p.2))
        else if c2 = ']' then some ([str], r2)
        else none) = some (str :: t :: rest, cs)
    rw [skipWs_not_ws ',' _ (by decide)]
    show (if ',' = ',' then
        (readElems f (' ' :: (encodeElems (t :: rest) ++ ']' :: cs))).map
          (fun p => (str :: p.1, p.2))
      else if ',' = ']' then
        some ([str], ' ' :: (encodeElems (t :: rest) ++ ']' :: cs))
      else none) = some (str :: t :: rest, cs)
    rw [if_pos rfl, readElems_space]
    rw [ih t cs f (by simp only [List.length_cons] at hfuel; omega)]
    rfl

theorem mk_data (x : String) : String.mk x.data = x := by
  rcases x with ⟨d⟩
  rfl

theorem encodeElems_head (x : List Char) (xs : List (List Char)) :
    ∃ t, encodeElems (x :: xs) = quoteChar :: t := by
  cases xs with
  | nil => exact ⟨escapeString x ++ [quoteChar], rfl⟩
  | cons y r =>
    refine ⟨(escapeString x ++ [quoteChar]) ++ ',' :: ' ' :: encodeElems (y :: r), ?_⟩
    show encodeString x ++ ',' :: ' ' :: encodeElems (y :: r) = _
    show (quoteChar :: (escapeString x ++ [quoteChar])) ++ ',' :: ' ' :: encodeElems (y :: r) = _
    rw [List.cons_append]

/-- C7: every list of strings written with `dumps` is read back by `loads`
as exactly the same list — order and content preserved, the empty list
included. -/
theorem loads_dumps (l : List String) : loads (dumps l) = some l := by
  cases l with
  | nil => rfl
  | cons s rest =>
    obtain ⟨t, ht⟩ := encodeElems_head s.data (rest.map String.data)
    show (match skipWs ('[' :: (encodeElems (s.data :: rest.map String.data) ++ [']'])) with
      | [] => none
      | c :: r =>
        if c = '[' then
          (match skipWs r with
           | [] => none
           | c2 :: r2 =>
             if c2 = ']' then (if skipWs r2 = [] then some [] else none)
             else
               (match readElems
                   (('[' :: (encodeElems (s.data :: rest.map String.data) ++ [']'])).length + 1)
                   r with
                | some (l2, rest2) =>
                  if skipWs rest2 = [] then some (l2.map (fun d => String.mk d)) else none
                | none => none))
        else none) = some (s :: rest)
    rw [skipWs_not_ws '[' _ (by decide)]
    show (if '[' = '[' then
      (match skipWs (encodeElems (s.data :: rest.map String.data) ++ [']']) with
       | [] => none
       | c2 :: r2 =>
         if c2 = ']' then (if skipWs r2 = [] then some [] else none)
         else
           (match readElems
               (('[' :: (encodeElems (s.data :: rest.map String.data) ++ [']'])).length + 1)
               (encodeElems (s.data :: rest.map String.data) ++ [']']) with
            | some (l2, rest2) =>
              if skipWs rest2 = [] then some (l2.map (fun d => String.mk d)) else none
            | none => none))
      else none) = some (s :: rest)
    rw [if_pos rfl]
    have hEnc : encodeElems (s.data :: rest.map String.data) ++ [']'] =
        quoteChar :: (t ++ [']']) := by
      rw [ht, List.cons_append]
    have hskip : skipWs (encodeElems (s.data :: rest.map String.data) ++ [']']) =
        quoteChar :: (t ++ [']']) := by
      rw [hEnc]
      exact skipWs_not_ws quoteChar _ (by decide)
    rw [hskip]
    show (if quoteChar = ']' then
        (if skipWs (t ++ [']']) = [] then some [] else none)
      else
        (match readElems
            (('[' :: (encodeElems (s.data :: rest.map String.data) ++ [']'])).length + 1)
            (encodeElems (s.data :: rest.map String.data) ++ [']']) with
         | some (l2, rest2) =>
           if skipWs rest2 = [] then some (l2.map (fun d => String.mk d)) else none
         | none => none)) = some (s :: rest)
    rw [if_neg (by decide)]
    rw [readElems_encode (rest.map String.data) s.data []
        (('[' :: (encodeElems (s.data :: rest.map String.data) ++ [']'])).length + 1)
        (by
          have h1 := encodeElems_length_ge s.data (rest.map String.data)
          simp only [List.length_cons, List.length_append, List.length_map] at *
          omega)]
    show (if skipWs ([] : List Char) = [] then
        some ((s.data :: rest.map String.data).map (fun d => String.mk d))
      else none) = some (s :: rest)
    rw [if_pos (show skipWs ([] : List Char) = [] from rfl)]
    refine congrArg some ?_
    show String.mk s.data :: (rest.map String.data).map (fun d => String.mk d) = s :: rest
    rw [mk_data, List.map_map]
    refine congrArg (List.cons s) ?_
    rw [show ((fun d => String.mk d) ∘ String.data) = fun x : String => String.mk x.data
      from rfl]
    calc rest.map (fun x : String => String.mk x.data) = rest.map id := by
          apply List.map_congr_left
          intro a _
          exact mk_data a
      _ = rest := List.map_id rest

end GrantTracker
